import Mathlib

/-!
Verification development for the `aceteam-nodes` repository: a shallow
embedding of its field-type system, node base contract, workflow graph
model, sequence/data adapter nodes and control-flow expansion nodes,
together with theorems settling the frozen claims about them.

Source files embedded (paths relative to the repository root):
* `src/aceteam_nodes/field.py` — `FieldType`, `FieldInfo` and its
  validators, `python_type`, `build_pydantic_model`;
* `src/aceteam_nodes/node_base.py` — `AceTeamNode.parse_input`;
* `src/aceteam_nodes/nodes/conditional.py` — `IfNode`, `IfElseNode`;
* `src/aceteam_nodes/nodes/iteration.py` — `GatherSequenceNode`,
  `ExpandSequenceNode`, `GatherDataNode`, `ExpandDataNode`,
  `JsonToSequenceNode`, `ForEachNode.run`;
* `src/aceteam_nodes/nodes/data_transform.py` — `DataTransformNode.run`.

The graph data types (`Node`, `Edge`, `InputEdge`, `OutputEdge`,
`Workflow`) and the namespacing operation `with_namespace` come from the
external `workflow_engine` package; they are modelled from the spec where
noted.
-/

namespace AceTeamNodes

/-! ## Field type system (`src/aceteam_nodes/field.py`) -/

/-- The closed enumeration `FieldType` from `field.py`: the set of field
types supported by AceTeam nodes. -/
inductive FieldType where
  | boolean
  | fieldList
  | iterationIndexedFieldList
  | file
  | fileAudio
  | fileCsv
  | fileJson
  | fileJsonLines
  | fileMp3
  | filePdf
  | fileText
  | fileVideo
  | ganttChart
  | graph
  | json
  | longText
  | model
  | modelList
  | number
  | sequence
  | shortText
  | sql
  | workflow
deriving DecidableEq

/-- A JSON-like raw value universe standing for arbitrary Python values
(the `Any` defaults, raw input maps fed to `parse_input`, and the runtime
input sequences fed to `ForEach`). -/
inductive RawValue where
  | null
  | bool (b : Bool)
  | num (q : ℚ)
  | str (s : String)
  | arr (xs : List RawValue)

/-- The data carried by a `FieldInfo` pydantic model (`field.py`):
name, type, optional display metadata, an arbitrary default, nested
`type_parameters`, the number-only `min`/`max`/`step`, the SQL-only
`database_connection`, the text-only `template_parameters`, and the
short-text-only `options`.  Recursive through `type_parameters`, hence an
inductive with one constructor. -/
inductive FieldInfoData where
  | mk
    (name : String)
    (type : FieldType)
    (displayName : Option String)
    (description : Option String)
    (default : Option RawValue)
    (typeParameters : List FieldInfoData)
    (min : Option ℚ)
    (max : Option ℚ)
    (step : Option ℚ)
    (databaseConnection : Option String)
    (templateParameters : Option String)
    (options : Option (List String))

def FieldInfoData.name : FieldInfoData → String
  | .mk n _ _ _ _ _ _ _ _ _ _ _ => n

def FieldInfoData.type : FieldInfoData → FieldType
  | .mk _ t _ _ _ _ _ _ _ _ _ _ => t

def FieldInfoData.default : FieldInfoData → Option RawValue
  | .mk _ _ _ _ d _ _ _ _ _ _ _ => d

def FieldInfoData.typeParameters : FieldInfoData → List FieldInfoData
  | .mk _ _ _ _ _ tp _ _ _ _ _ _ => tp

def FieldInfoData.min : FieldInfoData → Option ℚ
  | .mk _ _ _ _ _ _ mn _ _ _ _ _ => mn

def FieldInfoData.max : FieldInfoData → Option ℚ
  | .mk _ _ _ _ _ _ _ mx _ _ _ _ => mx

def FieldInfoData.step : FieldInfoData → Option ℚ
  | .mk _ _ _ _ _ _ _ _ st _ _ _ => st

def FieldInfoData.databaseConnection : FieldInfoData → Option String
  | .mk _ _ _ _ _ _ _ _ _ db _ _ => db

def FieldInfoData.templateParameters : FieldInfoData → Option String
  | .mk _ _ _ _ _ _ _ _ _ _ tm _ => tm

def FieldInfoData.options : FieldInfoData → Option (List String)
  | .mk _ _ _ _ _ _ _ _ _ _ _ op => op

/-- The concrete value kinds that `FieldInfo.python_type` can produce
(`field.py`, `_non_parametric_field_type_to_type` plus the `Sequence`
case): the value classes of the external `workflow_engine` package and the
file/field-list classes defined in `field.py`. -/
inductive VKind where
  | booleanV
  | floatV
  | stringV
  | jsonV
  | fileV
  | csvFileV
  | jsonFileV
  | jsonLinesFileV
  | pdfFileV
  | textFileV
  | fieldListV
  | iterationIndexedFieldListV
  | stringListV
  | sequenceV (elem : VKind)
deriving DecidableEq

/-- `FieldInfo.python_type` (`field.py` lines 156-164): `Sequence` maps to
a sequence of the single type parameter's kind (JSON when absent); every
other type maps through the fixed `_non_parametric_field_type_to_type`
table. -/
def FieldInfoData.pythonType : FieldInfoData → VKind
  | .mk _ ty _ _ _ tps _ _ _ _ _ _ =>
    match ty with
    | .sequence =>
      match tps with
      | [p] => .sequenceV p.pythonType
      | _ => .sequenceV .jsonV
    | .boolean => .booleanV
    | .fieldList => .fieldListV
    | .iterationIndexedFieldList => .iterationIndexedFieldListV
    | .file => .fileV
    | .fileAudio => .fileV
    | .fileCsv => .csvFileV
    | .fileJson => .jsonFileV
    | .fileJsonLines => .jsonLinesFileV
    | .fileMp3 => .fileV
    | .filePdf => .pdfFileV
    | .fileText => .textFileV
    | .fileVideo => .fileV
    | .ganttChart => .jsonV
    | .graph => .jsonV
    | .json => .jsonV
    | .longText => .stringV
    | .model => .stringV
    | .modelList => .stringListV
    | .number => .floatV
    | .shortText => .stringV
    | .sql => .stringV
    | .workflow => .jsonV

/-- The attribute checks of `FieldInfo._validate_number_fields`
(`field.py` lines 123-146), as one boolean: each `assert` in source order.
Deviation, confined to non-rational defaults: a `default` that is not a
rational number while `min`/`max` is present is `false` here, whereas
Python rejects only defaults that fail the numeric comparison (a string
raises `TypeError`, but a `bool` compares numerically and may pass).
Since `min`/`max` can only be present on Number fields, whose well-typed
defaults are numeric, the deviation sits outside every theorem below:
`violatesFieldInvariant` triggers its bounds clauses on `.num` defaults
only. -/
def attributeChecksOk (f : FieldInfoData) : Bool :=
  (f.type = .number || (f.min = none && f.max = none && f.step = none)) &&
  (f.type = .sql || f.databaseConnection = none) &&
  (f.type = .longText || f.type = .shortText || f.templateParameters = none) &&
  (f.type = .shortText || f.options = none) &&
  (match f.min, f.max with
   | some mn, some mx => decide (mn ≤ mx)
   | _, _ => true) &&
  (match f.min, f.default with
   | some mn, some (.num d) => decide (mn ≤ d)
   | some _, some _ => false
   | _, _ => true) &&
  (match f.max, f.default with
   | some mx, some (.num d) => decide (d ≤ mx)
   | some _, some _ => false
   | _, _ => true)

/-- The check of `FieldInfo._validate_sequence_fields` (`field.py` lines
148-154): at most one type parameter for `Sequence`, none otherwise. -/
def sequenceChecksOk (f : FieldInfoData) : Bool :=
  if f.type = .sequence then f.typeParameters.length ≤ 1
  else f.typeParameters.length = 0

/-- Whether constructing a `FieldInfo` from this data succeeds: pydantic
runs both `model_validator`s on the new instance, and validates nested
`type_parameters` recursively. -/
def fieldInfoValid : FieldInfoData → Bool
  | .mk n ty dn ds df tps mn mx st db tm op =>
    let f := FieldInfoData.mk n ty dn ds df tps mn mx st db tm op
    attributeChecksOk f && sequenceChecksOk f &&
      tps.attach.all (fun p => fieldInfoValid p.1)
decreasing_by
  have := List.sizeOf_lt_of_mem p.2
  simp only [FieldInfoData.mk.sizeOf_spec]
  omega

/-- Modelled from the spec: pydantic `model_validate` of a raw value
against a derived value kind.  The value classes live in the external
`workflow_engine` package; §4.2 describes this as "field-by-field
validation against the derived record type".  Acceptance is by kind:
booleans for `BooleanValue`, numbers for `FloatValue`, strings for
`StringValue` and the file references, anything for `JSONValue`, arrays
with recursively valid elements for sequence kinds. -/
def modelValidate : VKind → RawValue → Bool
  | .booleanV, .bool _ => true
  | .floatV, .num _ => true
  | .stringV, .str _ => true
  | .jsonV, _ => true
  | .fileV, .str _ => true
  | .csvFileV, .str _ => true
  | .jsonFileV, .str _ => true
  | .jsonLinesFileV, .str _ => true
  | .pdfFileV, .str _ => true
  | .textFileV, .str _ => true
  | .fieldListV, .arr _ => true
  | .iterationIndexedFieldListV, .arr _ => true
  | .stringListV, .arr xs =>
    xs.all (fun x => match x with | .str _ => true | _ => false)
  | .sequenceV e, .arr xs => xs.all (fun x => modelValidate e x)
  | _, _ => false

/-! ## Node base contract (`src/aceteam_nodes/node_base.py`) -/

/-- `AceTeamNode.parse_input` (`node_base.py` lines 60-65): a dict
comprehension over `input_fields_info` keeping only declared fields whose
name is present in the raw map, each kept value validated against the
field's `python_type` (`model_validate`); a validation failure raises
(`.error` here).  Declared fields absent from the map are skipped, keys
of the map that are not declared fields are never read. -/
def parse_input :
    List FieldInfoData → (String → Option RawValue) →
    Except String (List (String × RawValue))
  | [], _ => .ok []
  | f :: fs, input =>
    match input f.name with
    | none => parse_input fs input
    | some raw =>
      if modelValidate f.pythonType raw then
        match parse_input fs input with
        | .ok rest => .ok ((f.name, raw) :: rest)
        | .error e => .error e
      else .error ("validation failed for field " ++ f.name)

/-! ## Workflow graph model

The graph data types come from the external `workflow_engine` package;
they are modelled from the spec (§3): an `Edge` binds one node's named
output port to another node's named input port, an `InputEdge` binds a
workflow-level named input to a node port, an `OutputEdge` binds a node
port to a workflow-level named output, and a workflow holds nodes, edges,
input_edges, output_edges plus its declared input/output fields. -/

/-- Modelled from the spec: `workflow_engine.Edge`
(`{source_id, source_key, target_id, target_key}`, §3). -/
structure Edge where
  source_id : String
  source_key : String
  target_id : String
  target_key : String
deriving DecidableEq

/-- Modelled from the spec: `workflow_engine.InputEdge`
(`{input_key, target_id, target_key}`, §3). -/
structure InputEdge where
  input_key : String
  target_id : String
  target_key : String
deriving DecidableEq

/-- Modelled from the spec: `workflow_engine.OutputEdge`
(`{source_id, source_key, output_key}`, §3). -/
structure OutputEdge where
  source_id : String
  source_key : String
  output_key : String
deriving DecidableEq

/-- The information a node carries besides its id: its type discriminant
and its parameters.  The adapter nodes of `iteration.py` are explicit
(they carry the `length` parameter and the derived element/data record
signature); every other node of a workflow is opaque (`leaf`) with its
type tag. -/
inductive NodePayload where
  | jsonToSequence (dataSig : List (String × VKind))
  | expandSequence (length : Nat) (elemSig : List (String × VKind))
  | gatherSequence (length : Nat) (elemSig : List (String × VKind))
  | expandData (dataSig : List (String × VKind))
  | gatherData (dataSig : List (String × VKind))
  | leaf (tag : String)

/-- A node instance: an id unique within its enclosing graph plus its
payload (§3 "Node instance"). -/
structure GNode where
  id : String
  payload : NodePayload

/-- The node/edge data of a workflow graph (the part `ForEachNode.run`
constructs and returns). -/
structure Graph where
  nodes : List GNode
  edges : List Edge
  input_edges : List InputEdge
  output_edges : List OutputEdge

/-- `AceTeamWorkflow` (`workflow.py`): a workflow graph together with its
declared input and output fields. -/
structure Workflow extends Graph where
  inputs : List FieldInfoData
  outputs : List FieldInfoData

/-- Modelled from the spec: the id-prefixing applied by
`workflow_engine`'s `with_namespace` (§3 "Namespace": prefixes every node
id and every edge endpoint id with a namespace token).  The separator is
immaterial to the claims; any scheme injective in the id works the same
way. -/
def nsId (ns id : String) : String := ns ++ "/" ++ id

/-- Modelled from the spec: `Node.with_namespace` prefixes the node's id
with the namespace token and leaves its payload unchanged. -/
def GNode.with_namespace (n : GNode) (ns : String) : GNode :=
  { n with id := nsId ns n.id }

/-- Modelled from the spec: namespacing an internal edge prefixes both
endpoint ids. -/
def Edge.with_namespace (e : Edge) (ns : String) : Edge :=
  { e with source_id := nsId ns e.source_id, target_id := nsId ns e.target_id }

/-- Modelled from the spec: namespacing an input edge prefixes the target
node id (the input key is a graph-boundary name). -/
def InputEdge.with_namespace (e : InputEdge) (ns : String) : InputEdge :=
  { e with target_id := nsId ns e.target_id }

/-- Modelled from the spec: namespacing an output edge prefixes the
source node id. -/
def OutputEdge.with_namespace (e : OutputEdge) (ns : String) : OutputEdge :=
  { e with source_id := nsId ns e.source_id }

/-- Modelled from the spec: `Workflow.with_namespace` produces the
disjoint copy of a sub-graph with every node id and edge endpoint id
prefixed (§3 "Namespace"). -/
def Graph.with_namespace (g : Graph) (ns : String) : Graph where
  nodes := g.nodes.map (GNode.with_namespace · ns)
  edges := g.edges.map (Edge.with_namespace · ns)
  input_edges := g.input_edges.map (InputEdge.with_namespace · ns)
  output_edges := g.output_edges.map (OutputEdge.with_namespace · ns)

/-- `build_pydantic_model` (`field.py` lines 318-330) seen as a record
signature: the derived record type has one member per field, named by the
field and shaped by the field's `python_type` (§4.1). -/
def buildModelSig (fields : List FieldInfoData) : List (String × VKind) :=
  fields.map (fun f => (f.name, f.pythonType))

/-! ## Error kinds (§7) -/

/-- The error kinds relevant to the claims.  `userException` is
`workflow_engine.UserException` (raised explicitly by node bodies);
`assertionError` is Python's `AssertionError` (raised by a failing plain
`assert`); `schemaError` is the `SchemaError` the spec names for schema
violations. -/
inductive ErrKind where
  | assertionError (msg : String)
  | userException (msg : String)
  | schemaError (msg : String)
deriving DecidableEq

/-- Whether a computation failed with a `UserException`. -/
def failsWithUserException {α : Type} : Except ErrKind α → Bool
  | .error (.userException _) => true
  | _ => false

/-- Whether a computation failed with a `SchemaError`. -/
def failsWithSchemaError {α : Type} : Except ErrKind α → Bool
  | .error (.schemaError _) => true
  | _ => false

/-! ## Sequence/data adapter nodes (`src/aceteam_nodes/nodes/iteration.py`) -/

/-- The indexed port key and iteration namespace token `f"element_{i}"`
(`iteration.py` lines 61-62, 110-111 and 343: `GatherSequenceNode.key`,
`ExpandSequenceNode.key`, and the `ForEachNode.run` namespace coincide). -/
def elementKey (i : Nat) : String := s!"element_{i}"

/-- The message of the failing length `assert` in
`ExpandSequenceNode.run` (`iteration.py` lines 132-134), naming the
expected and the actual length. -/
def lengthMismatchMsg (expected actual : Nat) : String :=
  s!"Expected sequence of length {expected}, but got {actual}"

/-- `ExpandSequenceNode.run` (`iteration.py` lines 129-135): checks the
input sequence's length against the `length` parameter with a plain
Python `assert` — so a mismatch raises `AssertionError` carrying the
message built from the expected and actual lengths — and on success
returns the output record mapping `element_i` to the i-th element. -/
def expandSequenceRun {V : Type} (length : Nat) (seq : List V) :
    Except ErrKind (List (String × V)) :=
  if seq.length = length then
    .ok (seq.enum.map (fun p => (elementKey p.1, p.2)))
  else
    .error (.assertionError (lengthMismatchMsg length seq.length))

/-- The `NestedData` record of `iteration.py` (lines 146-147): a single
`data` field holding a whole record. -/
structure NestedData (D : Type) where
  data : D

/-- `GatherDataNode.run` (`iteration.py` lines 172-174): wraps the entire
input record into the nested `data` field. -/
def gatherDataRun {D : Type} (input : D) : NestedData D := ⟨input⟩

/-- `ExpandDataNode.run` (`iteration.py` lines 203-205): returns the
record stored in the nested `data` field. -/
def expandDataRun {D : Type} (input : NestedData D) : D := input.data

/-! ## Conditional nodes (`src/aceteam_nodes/nodes/conditional.py`) -/

/-- `IfParams`: the embedded `if_true` sub-workflow. -/
structure IfParams where
  if_true : Workflow

/-- `IfNode.run` (`conditional.py` lines 114-119): the embedded `if_true`
workflow when the condition is true, Python `None` (here `none`) when it
is false. -/
def ifRun (params : IfParams) (condition : Bool) : Option Workflow :=
  if condition then some params.if_true else none

/-- `IfElseParams`: the embedded `if_true` and `if_false`
sub-workflows. -/
structure IfElseParams where
  if_true : Workflow
  if_false : Workflow

/-- `IfElseNode.run` (`conditional.py` lines 175-180): selects the
embedded sub-workflow matching the boolean condition. -/
def ifElseRun (params : IfElseParams) (condition : Bool) : Workflow :=
  if condition then params.if_true else params.if_false

/-- The dict comprehension `{f.name: f.type for f in fields}` used by the
conditional nodes to compare branch schemas: a name-to-type map in which
a later duplicate name overwrites an earlier one. -/
def typeMap (fields : List FieldInfoData) (name : String) : Option FieldType :=
  ((fields.filter (fun f => f.name = name)).getLast?).map (fun f => f.type)

/-- Python `==` on the two name-to-type dicts: extensional equality of
the maps, decided over every name occurring in either field list. -/
def typesMatch (xs ys : List FieldInfoData) : Bool :=
  (xs.map FieldInfoData.name ++ ys.map FieldInfoData.name).all
    (fun n => decide (typeMap xs n = typeMap ys n))

/-- The `CONDITION_FIELD_INFO` constant of `conditional.py`
(lines 42-47). -/
def conditionFieldInfo : FieldInfoData :=
  .mk "condition" .boolean (some "Condition") (some "The condition to check.")
    none [] none none none none none none

/-- `IfElseNode.output_fields_info` (`conditional.py` lines 162-173): a
`cached_property` computed on first access — not during node
construction — whose branch comparison is a plain `assert`, so divergent
branch outputs raise `AssertionError` with the message below; matching
branches yield the true branch's outputs. -/
def ifElseOutputFieldsInfo (params : IfElseParams) :
    Except ErrKind (List FieldInfoData) :=
  if typesMatch params.if_true.outputs params.if_false.outputs then
    .ok params.if_true.outputs
  else
    .error (.assertionError "IfElse: true and false outputs must match")

/-- `IfElseNode.input_fields_info` (`conditional.py` lines 146-160):
asserts that the branch input maps agree and that `condition` is not a
declared input name, then prepends the condition field. -/
def ifElseInputFieldsInfo (params : IfElseParams) :
    Except ErrKind (List FieldInfoData) :=
  if typesMatch params.if_true.inputs params.if_false.inputs then
    if (params.if_true.inputs.map FieldInfoData.name).contains "condition" then
      .error (.assertionError "IfElse: condition is a reserved keyword")
    else
      .ok (conditionFieldInfo :: params.if_true.inputs)
  else
    .error (.assertionError "IfElse: true and false inputs must match")

/-! ## Data transform node (`src/aceteam_nodes/nodes/data_transform.py`) -/

/-- The input record of `DataTransformNode`: one `input` string field. -/
structure DataTransformNodeInput where
  input : String

/-- The output record of `DataTransformNode`: one `output` string
field. -/
structure DataTransformNodeOutput where
  output : String

/-- `DataTransformNode.run` (`data_transform.py` lines 86-91): returns
the input unchanged; the `instruction` parameter is never read. -/
def dataTransformRun (instruction : String) (inp : DataTransformNodeInput) :
    DataTransformNodeOutput :=
  ⟨inp.input⟩

/-! ## ForEach expansion (`src/aceteam_nodes/nodes/iteration.py` lines 320-404) -/

/-- The `json_to_sequence` node built by `ForEachNode.run` (lines
329-331), carrying the embedded workflow's input record type. -/
def jsonToSequenceNode (W : Workflow) : GNode :=
  ⟨"json_to_sequence", .jsonToSequence (buildModelSig W.inputs)⟩

/-- The `expand` node built by `ForEachNode.run` (lines 332-334):
`ExpandSequence` of the runtime length, element type the embedded
workflow's input record. -/
def expandNode (W : Workflow) (N : Nat) : GNode :=
  ⟨"expand", .expandSequence N (buildModelSig W.inputs)⟩

/-- The `gather` node built by `ForEachNode.run` (lines 335-337):
`GatherSequence` of the runtime length, element type the embedded
workflow's output record. -/
def gatherNode (W : Workflow) (N : Nat) : GNode :=
  ⟨"gather", .gatherSequence N (buildModelSig W.outputs)⟩

/-- The per-iteration `input_adapter` (lines 344-346): an `ExpandData`
node on the embedded workflow's input record type, namespaced under
`element_i`. -/
def inputAdapterNode (W : Workflow) (i : Nat) : GNode :=
  GNode.with_namespace
    ⟨"input_adapter", .expandData (buildModelSig W.inputs)⟩ (elementKey i)

/-- The per-iteration `output_adapter` (lines 348-350): a `GatherData`
node on the embedded workflow's output record type, namespaced under
`element_i`. -/
def outputAdapterNode (W : Workflow) (i : Nat) : GNode :=
  GNode.with_namespace
    ⟨"output_adapter", .gatherData (buildModelSig W.outputs)⟩ (elementKey i)

/-- The nodes appended for iteration `i` (lines 352-354): the input
adapter, the namespaced copies of the embedded workflow's nodes, the
output adapter. -/
def iterNodes (W : Workflow) (i : Nat) : List GNode :=
  inputAdapterNode W i
    :: (W.toGraph.with_namespace (elementKey i)).nodes
    ++ [outputAdapterNode W i]

/-- The edges appended for iteration `i` (lines 356-382): the
expand-to-adapter edge, one adapter-to-copy edge per input edge of the
namespaced copy (input key becomes the adapter's output key), the copy's
internal edges, one copy-to-adapter edge per output edge of the copy
(output key becomes the adapter's input key), and the adapter-to-gather
edge. -/
def iterEdges (W : Workflow) (i : Nat) : List Edge :=
  let ns := elementKey i
  let itemW := W.toGraph.with_namespace ns
  let ia := nsId ns "input_adapter"
  let oa := nsId ns "output_adapter"
  Edge.mk "expand" (elementKey i) ia "data"
    :: (itemW.input_edges.map
          (fun ie => Edge.mk ia ie.input_key ie.target_id ie.target_key)
        ++ itemW.edges
        ++ itemW.output_edges.map
            (fun oe => Edge.mk oe.source_id oe.source_key oa oe.output_key)
        ++ [Edge.mk oa "data" "gather" (elementKey i)])

/-- The graph returned by `ForEachNode.run` (lines 326-404) as a function
of the embedded workflow and the runtime sequence length `N`: the three
primitive nodes followed by the per-iteration blocks; the per-iteration
edges followed by the final `json_to_sequence`-to-`expand` edge; a single
input edge binding input key `sequence` to `json_to_sequence.sequence`;
a single output edge binding `gather.sequence` to output key
`sequence`. -/
def forEachExpand (W : Workflow) (N : Nat) : Graph where
  nodes := jsonToSequenceNode W :: expandNode W N :: gatherNode W N
    :: (List.range N).flatMap (iterNodes W)
  edges := (List.range N).flatMap (iterEdges W)
    ++ [Edge.mk "json_to_sequence" "sequence" "expand" "sequence"]
  input_edges := [⟨"sequence", "json_to_sequence", "sequence"⟩]
  output_edges := [⟨"gather", "sequence", "sequence"⟩]

/-- `ForEachNode.run` (lines 320-404): reads only the length of the
runtime `sequence` input (lines 322-323) and builds the expansion graph
from the embedded workflow and that length. -/
def forEachRun (W : Workflow) (seq : List RawValue) : Graph :=
  forEachExpand W seq.length

/-! ## Concrete instances used by the theorems below -/

/-- The violations listed by claim C7, over raw field data: a
type-restricted attribute present while its owning type does not match
(`min`/`max`/`step` on a non-Number, `database_connection` on a non-Sql,
`template_parameters` on a non-Long/ShortText, `options` on a
non-ShortText, a type parameter on a non-Sequence), or a Number default
outside present `min`/`max` bounds. -/
def violatesFieldInvariant (f : FieldInfoData) : Bool :=
  ((f.min.isSome || f.max.isSome || f.step.isSome) && decide (f.type ≠ .number)) ||
  (f.databaseConnection.isSome && decide (f.type ≠ .sql)) ||
  (f.templateParameters.isSome &&
    decide (f.type ≠ .longText ∧ f.type ≠ .shortText)) ||
  (f.options.isSome && decide (f.type ≠ .shortText)) ||
  (!f.typeParameters.isEmpty && decide (f.type ≠ .sequence)) ||
  (match f.min, f.default with
   | some mn, some (.num d) => decide (d < mn)
   | _, _ => false) ||
  (match f.max, f.default with
   | some mx, some (.num d) => decide (mx < d)
   | _, _ => false)

/-- A Number input field with no default, as declared field data. -/
def numberField : FieldInfoData :=
  .mk "x" .number none none none [] none none none none none none

/-- A LongText input field `t` with no default, as declared field
data. -/
def textField : FieldInfoData :=
  .mk "t" .longText none none none [] none none none none none none

/-- An output field `y` of kind Number. -/
def outNumberField : FieldInfoData :=
  .mk "y" .number none none none [] none none none none none none

/-- An output field `y` of kind LongText. -/
def outTextField : FieldInfoData :=
  .mk "y" .longText none none none [] none none none none none none

/-- `IfElse` parameters whose branches declare a `y` output of different
kinds (Number vs. LongText). -/
def mismatchedIfElse : IfElseParams :=
  ⟨{ nodes := [], edges := [], input_edges := [], output_edges := [],
     inputs := [], outputs := [outNumberField] },
   { nodes := [], edges := [], input_edges := [], output_edges := [],
     inputs := [], outputs := [outTextField] }⟩

/-- A one-node workflow with a Number output `y`. -/
def wfTrueBranch : Workflow :=
  { nodes := [⟨"echo", .leaf "DataTransform"⟩], edges := [],
    input_edges := [], output_edges := [], inputs := [],
    outputs := [outNumberField] }

/-- An empty workflow with a Number output `y`. -/
def wfFalseBranch : Workflow :=
  { nodes := [], edges := [], input_edges := [], output_edges := [],
    inputs := [], outputs := [outNumberField] }

/-- `IfElse` parameters with matching branch output schemas. -/
def matchedIfElse : IfElseParams := ⟨wfTrueBranch, wfFalseBranch⟩

/-- A small embedded workflow: one echo node wired from workflow input
`x` to workflow output `y`. -/
def sampleWorkflow : Workflow :=
  { nodes := [⟨"echo", .leaf "DataTransform"⟩],
    edges := [],
    input_edges := [⟨"x", "echo", "input"⟩],
    output_edges := [⟨"echo", "output", "y"⟩],
    inputs := [.mk "x" .longText none none none [] none none none none none none],
    outputs := [.mk "y" .longText none none none [] none none none none none none] }

/-- An embedded workflow containing a node whose id `input_adapter`
collides, after namespacing, with the per-iteration input adapter that
ForEach inserts under the same namespace. -/
def collidingWorkflow : Workflow :=
  { nodes := [⟨"input_adapter", .leaf "TextInput"⟩], edges := [],
    input_edges := [], output_edges := [], inputs := [], outputs := [] }

/-! ## Theorems -/

/-- **C6** For every `If` node, `IfNode.run` with condition `true`
returns the embedded `if_true` sub-workflow unchanged, and with
condition `false` returns the no-op sentinel `none` — Python `None`, a
value distinct from every workflow — producing no outputs. -/
theorem ifRun_selects_branch (params : IfParams) :
    ifRun params true = some params.if_true ∧ ifRun params false = none :=
  ⟨rfl, rfl⟩

/-- **C9** For every data type `D` and record `x : D`,
`ExpandDataNode.run` applied to `GatherDataNode.run x` returns `x`
unchanged, and conversely: the two adapters are mutually inverse. -/
theorem expandData_gatherData_inverse {D : Type} (x : D) (y : NestedData D) :
    expandDataRun (gatherDataRun x) = x ∧ gatherDataRun (expandDataRun y) = y :=
  ⟨rfl, rfl⟩

/-- **C10** `DataTransformNode.run` is a pure pass-through: for every
input record and every value of the `instruction` parameter, the output
field equals the input field unchanged, and the instruction never
affects the result. -/
theorem dataTransform_passthrough (instr instr' : String)
    (inp : DataTransformNodeInput) :
    (dataTransformRun instr inp).output = inp.input ∧
    dataTransformRun instr inp = dataTransformRun instr' inp :=
  ⟨rfl, rfl⟩

/-- **C2 counterexample** `ExpandSequenceNode.run` with parameter
`length = 2` fed a sequence of length 1 does not fail with a
`UserException` (the claimed error kind): the length check is a plain
Python `assert`, so it fails with an `AssertionError` (whose message does
name both lengths). -/
theorem expandSequence_wrong_length_not_userException :
    failsWithUserException (expandSequenceRun 2 [RawValue.null]) = false ∧
    expandSequenceRun 2 [RawValue.null] =
      .error (.assertionError "Expected sequence of length 2, but got 1") :=
  ⟨rfl, rfl⟩

/-- **C2 (amended)** For every `N` and input sequence whose length
differs from `N`, `ExpandSequenceNode.run` (parameter `length = N`)
fails with an `AssertionError` — not a `UserException` — whose message
names both the expected length `N` and the actual length; for an input
of length exactly `N` it succeeds and produces output ports
`element_0 .. element_{N-1}` holding the sequence elements in index
order. -/
theorem expandSequenceRun_spec {V : Type} (length : Nat) (seq : List V) :
    (seq.length ≠ length →
      expandSequenceRun length seq =
        .error (.assertionError (lengthMismatchMsg length seq.length))) ∧
    (seq.length = length →
      ∃ l, expandSequenceRun length seq = .ok l ∧
        l.length = length ∧
        ∀ i : Nat, i < length →
          ∃ v, seq[i]? = some v ∧ l[i]? = some (elementKey i, v)) := by
  constructor
  · intro h
    simp [expandSequenceRun, h]
  · intro h
    refine ⟨seq.enum.map (fun p => (elementKey p.1, p.2)), ?_, ?_, ?_⟩
    · simp [expandSequenceRun, h]
    · simp [h]
    · intro i hi
      have his : i < seq.length := h ▸ hi
      refine ⟨seq[i], ?_, ?_⟩
      · exact List.getElem?_eq_getElem his
      · simp [List.getElem?_map, List.getElem?_enum, List.getElem?_eq_getElem his]

/-- **C2 witness** The amended theorem at `N = 3` and the length-1
sequence `[null]`. -/
theorem expandSequenceRun_spec_witness :
    expandSequenceRun 3 [RawValue.null] =
      .error (.assertionError "Expected sequence of length 3, but got 1") :=
  (expandSequenceRun_spec 3 [RawValue.null]).1 (by decide)

/-- From a passing `_validate_number_fields`: a non-Number field has no
`min`, `max` or `step`. -/
theorem attributeChecksOk_nonNumber {f : FieldInfoData}
    (h : attributeChecksOk f = true) (hty : f.type ≠ .number) :
    f.min = none ∧ f.max = none ∧ f.step = none := by
  simp only [attributeChecksOk, Bool.and_eq_true, Bool.or_eq_true,
    decide_eq_true_eq] at h
  rcases h.1.1.1.1.1.1 with h' | h'
  · exact absurd h' hty
  · exact ⟨h'.1.1, h'.1.2, h'.2⟩

/-- From a passing `_validate_number_fields`: a non-Sql field has no
`database_connection`. -/
theorem attributeChecksOk_nonSql {f : FieldInfoData}
    (h : attributeChecksOk f = true) (hty : f.type ≠ .sql) :
    f.databaseConnection = none := by
  simp only [attributeChecksOk, Bool.and_eq_true, Bool.or_eq_true,
    decide_eq_true_eq] at h
  rcases h.1.1.1.1.1.2 with h' | h'
  · exact absurd h' hty
  · exact h'

/-- From a passing `_validate_number_fields`: a non-text field has no
`template_parameters`. -/
theorem attributeChecksOk_nonText {f : FieldInfoData}
    (h : attributeChecksOk f = true) (h1 : f.type ≠ .longText)
    (h2 : f.type ≠ .shortText) : f.templateParameters = none := by
  simp only [attributeChecksOk, Bool.and_eq_true, Bool.or_eq_true,
    decide_eq_true_eq] at h
  rcases h.1.1.1.1.2 with (h' | h') | h'
  · exact absurd h' h1
  · exact absurd h' h2
  · exact h'

/-- From a passing `_validate_number_fields`: a non-ShortText field has
no `options`. -/
theorem attributeChecksOk_nonShortText {f : FieldInfoData}
    (h : attributeChecksOk f = true) (hty : f.type ≠ .shortText) :
    f.options = none := by
  simp only [attributeChecksOk, Bool.and_eq_true, Bool.or_eq_true,
    decide_eq_true_eq] at h
  rcases h.1.1.1.2 with h' | h'
  · exact absurd h' hty
  · exact h'

/-- From a passing `_validate_number_fields`: a present `min` bounds a
present numeric default from below. -/
theorem attributeChecksOk_minDefault {f : FieldInfoData} {mn d : ℚ}
    (h : attributeChecksOk f = true) (hmn : f.min = some mn)
    (hd : f.default = some (.num d)) : mn ≤ d := by
  simp only [attributeChecksOk, Bool.and_eq_true] at h
  have h6 := h.1.2
  rw [hmn, hd] at h6
  simpa using h6

/-- From a passing `_validate_number_fields`: a present `max` bounds a
present numeric default from above. -/
theorem attributeChecksOk_maxDefault {f : FieldInfoData} {mx d : ℚ}
    (h : attributeChecksOk f = true) (hmx : f.max = some mx)
    (hd : f.default = some (.num d)) : d ≤ mx := by
  simp only [attributeChecksOk, Bool.and_eq_true] at h
  have h7 := h.2
  rw [hmx, hd] at h7
  simpa using h7

/-- From a passing `_validate_sequence_fields`: a non-Sequence field has
no type parameters. -/
theorem sequenceChecksOk_nonSequence {f : FieldInfoData}
    (h : sequenceChecksOk f = true) (hty : f.type ≠ .sequence) :
    f.typeParameters = [] := by
  simp only [sequenceChecksOk] at h
  rw [if_neg hty] at h
  simpa using h

/-- A constructible `FieldInfo` passes both of its model validators. -/
theorem fieldInfoValid_checks {f : FieldInfoData}
    (hval : fieldInfoValid f = true) :
    attributeChecksOk f = true ∧ sequenceChecksOk f = true := by
  rcases f with ⟨n, ty, dn, ds, df, tps, mn, mx, st, db, tm, op⟩
  simp only [fieldInfoValid, Bool.and_eq_true] at hval
  exact ⟨hval.1.1, hval.1.2⟩

/-- **C7** For every field kind, a `FieldInfo` whose raw data violates a
type-restricted-attribute invariant, or whose Number default lies
outside present `min`/`max` bounds, fails pydantic construction
(`_validate_number_fields` / `_validate_sequence_fields`): it is never
silently accepted. -/
theorem fieldInfo_invariant_violation_fails (f : FieldInfoData)
    (h : violatesFieldInvariant f = true) : fieldInfoValid f = false := by
  by_contra hval
  rw [Bool.not_eq_false] at hval
  obtain ⟨hattr, hseq⟩ := fieldInfoValid_checks hval
  simp only [violatesFieldInvariant, Bool.or_eq_true, Bool.and_eq_true,
    Bool.not_eq_eq_eq_not, Bool.not_true, decide_eq_true_eq] at h
  rcases h with (((((⟨hsome, hty⟩ | ⟨hsome, hty⟩) | ⟨hsome, hty⟩) |
      ⟨hsome, hty⟩) | ⟨htp, hty⟩) | hmin) | hmax
  · obtain ⟨h1, h2, h3⟩ := attributeChecksOk_nonNumber hattr hty
    rcases hsome with (hs | hs) | hs <;>
      simp_all
  · have := attributeChecksOk_nonSql hattr hty
    simp_all
  · have := attributeChecksOk_nonText hattr hty.1 hty.2
    simp_all
  · have := attributeChecksOk_nonShortText hattr hty
    simp_all
  · have := sequenceChecksOk_nonSequence hseq hty
    simp_all
  · rcases hmn : f.min with _ | mnq <;> rcases hdf : f.default with _ | dv <;>
      rw [hmn, hdf] at hmin <;> try simp at hmin
    rcases dv with _ | _ | q | _ | _ <;> simp at hmin
    exact absurd (attributeChecksOk_minDefault hattr hmn hdf) (by simpa using hmin.not_le)
  · rcases hmx : f.max with _ | mxq <;> rcases hdf : f.default with _ | dv <;>
      rw [hmx, hdf] at hmax <;> try simp at hmax
    rcases dv with _ | _ | q | _ | _ <;> simp at hmax
    exact absurd (attributeChecksOk_maxDefault hattr hmx hdf) (by simpa using hmax.not_le)

/-- **C7 witness** A Boolean field carrying `min = 1` violates the
invariant and fails construction. -/
theorem fieldInfo_invariant_violation_fails_witness :
    violatesFieldInvariant
      (.mk "x" .boolean none none none [] (some 1) none none none none none) = true ∧
    fieldInfoValid
      (.mk "x" .boolean none none none [] (some 1) none none none none none) = false :=
  ⟨rfl, fieldInfo_invariant_violation_fails _ rfl⟩

/-- **C3 counterexample** A node declaring the defaultless input field
`x` fed the empty raw map: `parse_input` succeeds with the empty record
instead of failing with a `ValidationError` for the missing field —
the comprehension in `node_base.py` simply skips absent keys. -/
theorem parse_input_missing_field_counterexample :
    parse_input [numberField] (fun _ => none) = .ok [] := rfl

/-- `parse_input` helper (completeness): on any raw map whose present
declared values all validate, the call succeeds and returns exactly the
declared fields present in the map, in declaration order — declared
fields absent from the map are skipped (never an error), present valid
values are accepted, and keys that are not declared fields contribute
nothing. -/
theorem parse_input_complete (fields : List FieldInfoData)
    (input : String → Option RawValue)
    (h : ∀ f ∈ fields, ∀ raw, input f.name = some raw →
      modelValidate f.pythonType raw = true) :
    parse_input fields input =
      .ok (fields.filterMap (fun f =>
        (input f.name).map (fun raw => (f.name, raw)))) := by
  induction fields with
  | nil => rfl
  | cons f fs ih =>
    have ihh := ih (fun g hg raw hraw => h g (List.mem_cons_of_mem f hg) raw hraw)
    simp only [parse_input, List.filterMap_cons]
    rcases hname : input f.name with _ | raw
    · simpa [hname] using ihh
    · have hv := h f (List.mem_cons_self f fs) raw hname
      simp [hname, hv, ihh]

/-- `parse_input` helper: every entry of a successful result comes from
a declared field whose name was present in the raw map with a value that
passed validation against the field's derived kind; in particular keys
of the map that are not declared fields never appear. -/
theorem parse_input_sound (fields : List FieldInfoData)
    (input : String → Option RawValue) (l : List (String × RawValue))
    (h : parse_input fields input = .ok l) :
    ∀ p ∈ l, ∃ f ∈ fields, f.name = p.1 ∧ input p.1 = some p.2 ∧
      modelValidate f.pythonType p.2 = true := by
  induction fields generalizing l with
  | nil =>
    simp only [parse_input, Except.ok.injEq] at h
    subst h
    simp
  | cons f fs ih =>
    intro p hp
    simp only [parse_input] at h
    rcases hname : input f.name with _ | raw
    · simp only [hname] at h
      obtain ⟨g, hg, hrest⟩ := ih l h p hp
      exact ⟨g, by simp [hg], hrest⟩
    · simp only [hname] at h
      rcases hvalid : modelValidate f.pythonType raw with _ | _
      · simp [hvalid] at h
      · simp only [hvalid, if_true] at h
        rcases hrec : parse_input fs input with e | rest
        · simp [hrec] at h
        · simp only [hrec, Except.ok.injEq] at h
          subst h
          rcases List.mem_cons.mp hp with hp | hp
          · subst hp
            exact ⟨f, by simp, rfl, hname, hvalid⟩
          · obtain ⟨g, hg, hrest⟩ := ih rest hrec p hp
            exact ⟨g, by simp [hg], hrest⟩

/-- `parse_input` helper: if some declared field is present in the raw
map with a value that fails validation, the whole call fails. -/
theorem parse_input_fails_on_invalid (fields : List FieldInfoData)
    (input : String → Option RawValue)
    (h : ∃ f ∈ fields, ∃ raw, input f.name = some raw ∧
      modelValidate f.pythonType raw = false) :
    ∃ e, parse_input fields input = .error e := by
  induction fields with
  | nil => simp at h
  | cons f fs ih =>
    obtain ⟨g, hg, raw, hraw, hbad⟩ := h
    rcases List.mem_cons.mp hg with hg | hg
    · subst hg
      refine ⟨"validation failed for field " ++ g.name, ?_⟩
      simp [parse_input, hraw, hbad]
    · obtain ⟨e, he⟩ := ih ⟨g, hg, raw, hraw, hbad⟩
      rcases hname : input f.name with _ | raw'
      · refine ⟨e, ?_⟩
        simp [parse_input, hname, he]
      · rcases hvalid : modelValidate f.pythonType raw' with _ | _
        · refine ⟨"validation failed for field " ++ f.name, ?_⟩
          simp [parse_input, hname, hvalid]
        · refine ⟨e, ?_⟩
          simp [parse_input, hname, hvalid, he]

/-- **C3 (amended)** For every node and raw input map, `parse_input`
validates each declared input field's value that is present in the map
against the field's derived value kind (a failing value fails the whole
call), ignores keys of the map that are not declared fields, and
silently skips — rather than failing with a `ValidationError` for —
every declared field missing from the map, default or no default.
Conjunct one characterizes the result completely on every map whose
present declared values validate (including mixed maps with some fields
present and some missing): the output is exactly the declared-and-present
fields in declaration order, so missing fields are skipped, valid present
values are accepted, and undeclared keys contribute nothing.  Conjuncts
two and three add soundness of every successful result and failure on
any invalid present value. -/
theorem parse_input_spec (fields : List FieldInfoData)
    (input : String → Option RawValue) :
    ((∀ f ∈ fields, ∀ raw, input f.name = some raw →
        modelValidate f.pythonType raw = true) →
      parse_input fields input =
        .ok (fields.filterMap (fun f =>
          (input f.name).map (fun raw => (f.name, raw))))) ∧
    (∀ l, parse_input fields input = .ok l →
      ∀ p ∈ l, ∃ f ∈ fields, f.name = p.1 ∧ input p.1 = some p.2 ∧
        modelValidate f.pythonType p.2 = true) ∧
    ((∃ f ∈ fields, ∃ raw, input f.name = some raw ∧
        modelValidate f.pythonType raw = false) →
      ∃ e, parse_input fields input = .error e) :=
  ⟨parse_input_complete fields input,
   fun l => parse_input_sound fields input l,
   parse_input_fails_on_invalid fields input⟩

/-- **C3 witness** A mixed raw map against the declared fields `x`
(Number) and `t` (LongText): `x` is absent, `t` is present with a valid
string, and the undeclared key `y` is present; the call succeeds with
exactly the `t` entry — `x` is skipped without error and `y` is
ignored. -/
theorem parse_input_spec_witness :
    parse_input [numberField, textField]
      (fun k => if k = "t" then some (.str "hello")
        else if k = "y" then some (.num 3) else none) =
      .ok [("t", RawValue.str "hello")] :=
  (parse_input_spec [numberField, textField] _).1 (by
    intro f hf raw hraw
    rcases List.mem_cons.mp hf with rfl | hf2
    · simp [numberField, FieldInfoData.name] at hraw
    · rcases List.mem_cons.mp hf2 with rfl | hf3
      · simp only [textField, FieldInfoData.name, if_pos] at hraw
        obtain rfl : raw = RawValue.str "hello" := (Option.some.injEq _ _).mp hraw.symm
        rfl
      · simp at hf3)

/-- A name absent from a field list is absent from its name-to-type
map. -/
theorem typeMap_eq_none_of_not_mem {fs : List FieldInfoData} {n : String}
    (h : n ∉ fs.map FieldInfoData.name) : typeMap fs n = none := by
  unfold typeMap
  have : fs.filter (fun f => decide (f.name = n)) = [] := by
    rw [List.filter_eq_nil_iff]
    intro a ha
    simp only [decide_eq_true_eq]
    intro hn
    exact h (List.mem_map.mpr ⟨a, ha, hn⟩)
  simp [this]

/-- The boolean dict comparison `typesMatch` agrees with extensional
equality of the two name-to-type maps. -/
theorem typesMatch_iff (xs ys : List FieldInfoData) :
    typesMatch xs ys = true ↔ ∀ n, typeMap xs n = typeMap ys n := by
  constructor
  · intro h n
    simp only [typesMatch, List.all_eq_true, List.mem_append,
      decide_eq_true_eq] at h
    by_cases hx : n ∈ xs.map FieldInfoData.name
    · exact h n (Or.inl hx)
    · by_cases hy : n ∈ ys.map FieldInfoData.name
      · exact h n (Or.inr hy)
      · rw [typeMap_eq_none_of_not_mem hx, typeMap_eq_none_of_not_mem hy]
  · intro h
    simp only [typesMatch, List.all_eq_true, decide_eq_true_eq]
    intro n _
    exact h n

/-- **C4 counterexample** With divergent branch output kinds the failure
is not a `SchemaError`: no `SchemaError` exists anywhere in the code —
the branch comparison in `conditional.py` is a plain `assert` inside a
lazily computed property, so it surfaces as an `AssertionError`. -/
theorem ifElse_mismatch_counterexample :
    failsWithSchemaError (ifElseOutputFieldsInfo mismatchedIfElse) = false ∧
    ifElseOutputFieldsInfo mismatchedIfElse =
      .error (.assertionError "IfElse: true and false outputs must match") :=
  ⟨rfl, rfl⟩

/-- **C4 (amended)** Constructing an `IfElse` node performs no branch
comparison; the check lives in the lazily computed `output_fields_info`,
which fails with an `AssertionError` (not a `SchemaError`) exactly when
the branches' output name-to-kind maps differ and otherwise returns the
true branch's outputs; `run` with condition `true` returns the `if_true`
sub-workflow unchanged and with condition `false` returns the `if_false`
sub-workflow unchanged. -/
theorem ifElse_branch_schema_check (params : IfElseParams) :
    ((∃ n, typeMap params.if_true.outputs n ≠ typeMap params.if_false.outputs n) →
      ifElseOutputFieldsInfo params =
        .error (.assertionError "IfElse: true and false outputs must match")) ∧
    ((∀ n, typeMap params.if_true.outputs n = typeMap params.if_false.outputs n) →
      ifElseOutputFieldsInfo params = .ok params.if_true.outputs) ∧
    ifElseRun params true = params.if_true ∧
    ifElseRun params false = params.if_false := by
  refine ⟨?_, ?_, rfl, rfl⟩
  · rintro ⟨n, hn⟩
    unfold ifElseOutputFieldsInfo
    rw [if_neg (fun hm => hn ((typesMatch_iff _ _).mp hm n))]
  · intro h
    unfold ifElseOutputFieldsInfo
    rw [if_pos ((typesMatch_iff _ _).mpr h)]

/-- **C4 witness** With matching branch schemas the field computation
succeeds with the true branch's outputs and `run` selects the matching
branch. -/
theorem ifElse_branch_schema_check_witness :
    ifElseOutputFieldsInfo matchedIfElse = .ok [outNumberField] ∧
    ifElseRun matchedIfElse true = wfTrueBranch :=
  ⟨(ifElse_branch_schema_check matchedIfElse).2.1 (fun _ => rfl),
   (ifElse_branch_schema_check matchedIfElse).2.2.1⟩

/-- Membership in the per-iteration node block: the input adapter, a
namespaced copy of an embedded-workflow node, or the output adapter. -/
theorem mem_iterNodes (W : Workflow) (i : Nat) (n : GNode) :
    n ∈ iterNodes W i ↔
      n = inputAdapterNode W i ∨
      (∃ m ∈ W.nodes, n = GNode.with_namespace m (elementKey i)) ∨
      n = outputAdapterNode W i := by
  simp only [iterNodes, List.mem_cons, List.mem_append, List.mem_singleton,
    Graph.with_namespace, List.mem_map, List.not_mem_nil, or_false]
  aesop

/-- The per-iteration edge block written directly over the embedded
workflow's own edge lists (pushing the namespacing map through the
adapter-edge constructions). -/
theorem iterEdges_eq (W : Workflow) (i : Nat) :
    iterEdges W i =
      ⟨"expand", elementKey i, nsId (elementKey i) "input_adapter", "data"⟩
        :: (W.input_edges.map (fun ie =>
              ⟨nsId (elementKey i) "input_adapter", ie.input_key,
               nsId (elementKey i) ie.target_id, ie.target_key⟩)
            ++ W.edges.map (fun e0 => Edge.with_namespace e0 (elementKey i))
            ++ W.output_edges.map (fun oe =>
                ⟨nsId (elementKey i) oe.source_id, oe.source_key,
                 nsId (elementKey i) "output_adapter", oe.output_key⟩)
            ++ [⟨nsId (elementKey i) "output_adapter", "data", "gather",
                 elementKey i⟩]) := by
  simp only [iterEdges, Graph.with_namespace, List.map_map]
  rfl

/-- Membership in the per-iteration edge block: the expand-to-adapter
edge, an adapter-to-copy edge derived from an embedded input edge, a
namespaced copy-internal edge, a copy-to-adapter edge derived from an
embedded output edge, or the adapter-to-gather edge. -/
theorem mem_iterEdges (W : Workflow) (i : Nat) (e : Edge) :
    e ∈ iterEdges W i ↔
      e = ⟨"expand", elementKey i, nsId (elementKey i) "input_adapter", "data"⟩ ∨
      (∃ ie ∈ W.input_edges, e = ⟨nsId (elementKey i) "input_adapter",
        ie.input_key, nsId (elementKey i) ie.target_id, ie.target_key⟩) ∨
      (∃ e0 ∈ W.edges, e = Edge.with_namespace e0 (elementKey i)) ∨
      (∃ oe ∈ W.output_edges, e = ⟨nsId (elementKey i) oe.source_id,
        oe.source_key, nsId (elementKey i) "output_adapter", oe.output_key⟩) ∨
      e = ⟨nsId (elementKey i) "output_adapter", "data", "gather", elementKey i⟩ := by
  rw [iterEdges_eq]
  simp only [List.mem_cons, List.mem_append, List.mem_singleton,
    List.mem_map, List.not_mem_nil, or_false]
  constructor
  · rintro (h | (((⟨a, ha, rfl⟩ | ⟨a, ha, rfl⟩) | ⟨a, ha, rfl⟩) | h))
    · exact Or.inl h
    · exact Or.inr (Or.inl ⟨a, ha, rfl⟩)
    · exact Or.inr (Or.inr (Or.inl ⟨a, ha, rfl⟩))
    · exact Or.inr (Or.inr (Or.inr (Or.inl ⟨a, ha, rfl⟩)))
    · exact Or.inr (Or.inr (Or.inr (Or.inr h)))
  · rintro (h | ⟨a, ha, rfl⟩ | ⟨a, ha, rfl⟩ | ⟨a, ha, rfl⟩ | h)
    · exact Or.inl h
    · exact Or.inr (Or.inl (Or.inl (Or.inl ⟨a, ha, rfl⟩)))
    · exact Or.inr (Or.inl (Or.inl (Or.inr ⟨a, ha, rfl⟩)))
    · exact Or.inr (Or.inl (Or.inr ⟨a, ha, rfl⟩))
    · exact Or.inr (Or.inr h)

/-- Each per-iteration node block holds the embedded workflow's nodes
plus the two adapters. -/
theorem iterNodes_length (W : Workflow) (i : Nat) :
    (iterNodes W i).length = W.nodes.length + 2 := by
  simp [iterNodes, Graph.with_namespace]

/-- The expansion's node count: the three primitives plus `N` blocks. -/
theorem forEachExpand_nodes_length (W : Workflow) (N : Nat) :
    (forEachExpand W N).nodes.length = 3 + N * (W.nodes.length + 2) := by
  induction N with
  | zero => simp [forEachExpand]
  | succ k ih =>
    simp only [forEachExpand, List.length_cons] at ih ⊢
    rw [List.range_succ, List.flatMap_append]
    simp only [List.flatMap_cons, List.flatMap_nil, List.append_nil,
      List.length_append, iterNodes_length, Nat.succ_mul]
    omega

/-- **C1** For every embedded workflow and runtime input sequence of
length `N ≥ 0`, `ForEachNode.run` returns a graph with exactly one input
edge binding input key `sequence` to `json_to_sequence.sequence` and one
output edge binding `gather.sequence` to output key `sequence`; whose
nodes are exactly the `JsonToSequence` node, the `ExpandSequence` node
of length `N`, the `GatherSequence` node of length `N`, and, per
iteration `i < N`, the namespaced input adapter, the namespaced copies
of the embedded workflow's nodes, and the namespaced output adapter
(a count of `3 + N * (|W.nodes| + 2)` nodes in total, so `N = 0` yields
exactly the three primitives and zero per-iteration copies); and whose
edges are exactly the `json_to_sequence`-to-`expand` edge plus, per
iteration, the expand-to-adapter, adapter-to-copy, copy-internal,
copy-to-adapter and adapter-to-gather edges. -/
theorem forEach_expansion_graph (W : Workflow) (seq : List RawValue) :
    (forEachRun W seq).input_edges = [⟨"sequence", "json_to_sequence", "sequence"⟩] ∧
    (forEachRun W seq).output_edges = [⟨"gather", "sequence", "sequence"⟩] ∧
    (∀ n : GNode, n ∈ (forEachRun W seq).nodes ↔
      (n = jsonToSequenceNode W ∨ n = expandNode W seq.length ∨
       n = gatherNode W seq.length ∨
       ∃ i, i < seq.length ∧
         (n = inputAdapterNode W i ∨
          (∃ m ∈ W.nodes, n = GNode.with_namespace m (elementKey i)) ∨
          n = outputAdapterNode W i))) ∧
    (∀ e : Edge, e ∈ (forEachRun W seq).edges ↔
      ((∃ i, i < seq.length ∧
         (e = ⟨"expand", elementKey i, nsId (elementKey i) "input_adapter", "data"⟩ ∨
          (∃ ie ∈ W.input_edges, e = ⟨nsId (elementKey i) "input_adapter",
            ie.input_key, nsId (elementKey i) ie.target_id, ie.target_key⟩) ∨
          (∃ e0 ∈ W.edges, e = Edge.with_namespace e0 (elementKey i)) ∨
          (∃ oe ∈ W.output_edges, e = ⟨nsId (elementKey i) oe.source_id,
            oe.source_key, nsId (elementKey i) "output_adapter", oe.output_key⟩) ∨
          e = ⟨nsId (elementKey i) "output_adapter", "data", "gather", elementKey i⟩)) ∨
       e = ⟨"json_to_sequence", "sequence", "expand", "sequence"⟩)) ∧
    (forEachRun W seq).nodes.length = 3 + seq.length * (W.nodes.length + 2) := by
  refine ⟨rfl, rfl, ?_, ?_, forEachExpand_nodes_length W seq.length⟩
  · intro n
    simp only [forEachRun, forEachExpand, List.mem_cons, List.mem_flatMap,
      List.mem_range, mem_iterNodes]
  · intro e
    simp only [forEachRun, forEachExpand, List.mem_append, List.mem_cons,
      List.mem_flatMap, List.mem_range, List.mem_singleton, mem_iterEdges,
      List.not_mem_nil, or_false]

/-- **C8** ForEach expansion is deterministic and idempotent: the graph
`ForEachNode.run` returns depends only on the embedded workflow and the
runtime sequence's length, so two calls with the same workflow and
same-length (in particular identical) sequences return structurally
identical graphs — same node ids and parameters, same edge, input-edge
and output-edge lists. -/
theorem forEach_expansion_deterministic (W : Workflow)
    (s1 s2 : List RawValue) (h : s1.length = s2.length) :
    forEachRun W s1 = forEachRun W s2 := by
  unfold forEachRun
  rw [h]

/-- **C8 witness** Two different runtime sequences of equal length
produce identical expansions of the sample workflow. -/
theorem forEach_expansion_deterministic_witness :
    forEachRun sampleWorkflow [RawValue.num 1] =
      forEachRun sampleWorkflow [RawValue.str "a"] :=
  forEach_expansion_deterministic sampleWorkflow _ _ rfl

/-- **C5 counterexample** Expansion over a workflow with a colliding
node id does not fail fast at construction: `ForEachNode.run` returns a
graph in which the node id `element_0/input_adapter` occurs twice. -/
theorem forEach_collision_counterexample :
    ((forEachRun collidingWorkflow [RawValue.null]).nodes.map GNode.id).count
      (nsId (elementKey 0) "input_adapter") = 2 := by decide

/-- **C5 (amended)** `ForEachNode.run` performs no collision check and
never fails fast: whenever the embedded workflow already contains a node
with the reserved id `input_adapter`, the expansion for any positive
length silently returns a graph with duplicate node ids — the inserted
per-iteration adapter and the namespaced copy of the embedded node share
one id. -/
theorem forEach_collision_silent (W : Workflow) (N i : Nat) (hi : i < N)
    (hmem : "input_adapter" ∈ W.nodes.map GNode.id) :
    2 ≤ ((forEachExpand W N).nodes.map GNode.id).count
      (nsId (elementKey i) "input_adapter") := by
  set key := nsId (elementKey i) "input_adapter" with hkey
  have hcopy : key ∈ (W.toGraph.with_namespace (elementKey i)).nodes.map GNode.id := by
    obtain ⟨m, hm, hmid⟩ := List.mem_map.mp hmem
    simp only [Graph.with_namespace, List.map_map]
    exact List.mem_map.mpr
      ⟨m, hm, by simp [Function.comp, GNode.with_namespace, hmid, hkey]⟩
  have hblock : 2 ≤ ((iterNodes W i).map GNode.id).count key := by
    have hmapeq : (iterNodes W i).map GNode.id =
        (inputAdapterNode W i).id ::
          (((W.toGraph.with_namespace (elementKey i)).nodes.map GNode.id)
            ++ [(outputAdapterNode W i).id]) := by
      simp [iterNodes]
    have hid : (inputAdapterNode W i).id = key := rfl
    rw [hmapeq, hid, List.count_cons_self]
    have hcount : 0 < (((W.toGraph.with_namespace (elementKey i)).nodes.map GNode.id)
        ++ [(outputAdapterNode W i).id]).count key :=
      List.count_pos_iff.mpr
        (List.mem_append_left [(outputAdapterNode W i).id] hcopy)
    omega
  obtain ⟨s, t, hst⟩ := List.append_of_mem (List.mem_range.mpr hi)
  calc 2 ≤ ((iterNodes W i).map GNode.id).count key := hblock
    _ ≤ (((List.range N).flatMap (iterNodes W)).map GNode.id).count key := by
        have hsub : List.Sublist (iterNodes W i)
            ((List.range N).flatMap (iterNodes W)) := by
          rw [hst, List.flatMap_append, List.flatMap_cons]
          exact (List.sublist_append_left _ _).trans
            (List.sublist_append_right _ _)
        exact (hsub.map GNode.id).count_le key
    _ ≤ ((forEachExpand W N).nodes.map GNode.id).count key := by
        have hsub : List.Sublist
            (((List.range N).flatMap (iterNodes W)).map GNode.id)
            ((forEachExpand W N).nodes.map GNode.id) := by
          simp only [forEachExpand, List.map_cons]
          exact ((List.sublist_cons_self _ _).trans
            (List.sublist_cons_self _ _)).trans (List.sublist_cons_self _ _)
        exact hsub.count_le key

/-- **C5 witness** The amended theorem at the colliding workflow,
length 2, iteration 1. -/
theorem forEach_collision_silent_witness :
    2 ≤ ((forEachExpand collidingWorkflow 2).nodes.map GNode.id).count
      (nsId (elementKey 1) "input_adapter") :=
  forEach_collision_silent collidingWorkflow 2 1 (by decide)
    (by simp [collidingWorkflow])

end AceTeamNodes
